import Mathlib

/-!
Shallow embedding of the real-time WebSocket fan-out core of the
Smart-Device-Management-Platform repository (class `WebSocketService` in
`src/src/controllers/deviceController.js`, lines 324-651), together with
proofs about its connection registry, room-based broadcast routing and
payload construction.

JavaScript `Map`s are modelled as association lists with first-match
lookup, in-place overwrite on `set`, and key-filtering `delete`.
socket.io rooms are modelled as a map from room name (a `String`, built
by the same string concatenations as the source) to the list of member
socket ids; `socket.join` adds a member if absent, and the socket.io
runtime removes a disconnected socket from every room and from the
server's socket set after the `disconnect` handlers have run.
`io.to(room).emit(event, payload)` produces one message per room member;
`io.emit(event, payload)` produces one message per connected socket.
-/

namespace SDMP

/-- JSON-like field values appearing in wire payloads.  `date n` stands for
a JavaScript `Date` (the numeric instant is opaque to the core). -/
inductive Value where
  | str : String → Value
  | num : Nat → Value
  | date : Nat → Value
  | strs : List String → Value
deriving DecidableEq, Repr

/-- A JavaScript object: ordered association list of fields. -/
abbrev Obj := List (String × Value)

/-- First-match lookup, as in `Map.prototype.get` / property access. -/
def mapGet (k : String) : List (String × α) → Option α
  | [] => none
  | (k1, v1) :: t => if k1 = k then some v1 else mapGet k t

/-- `Map.prototype.set` / property assignment: overwrite the first entry
with the key in place, or append a fresh entry. -/
def mapSet (k : String) (v : α) : List (String × α) → List (String × α)
  | [] => [(k, v)]
  | (k1, v1) :: t => if k1 = k then (k, v) :: t else (k1, v1) :: mapSet k v t

/-- `Map.prototype.delete`: drop every entry with the key (on well-formed
maps, whose keys are distinct, this is exactly deletion of the one entry). -/
def mapDelete (k : String) (m : List (String × α)) : List (String × α) :=
  m.filter (fun p => p.1 ≠ k)

/-- JavaScript object spread `{ ...base, ...fields }`: assign the fields
of `fields` onto `base` in order. -/
def objSpread (base fields : Obj) : Obj :=
  fields.foldl (fun acc p => mapSet p.1 p.2 acc) base

/-- Subscriber identity stored in `userSockets` at registration:
`{ userId, organization, role }` (deviceController.js line 392). -/
structure UserData where
  userId : String
  organization : String
  role : String
deriving DecidableEq, Repr

/-- A connected socket: its id and the authenticated `socket.user` set by
the handshake middleware. -/
structure Socket where
  id : String
  user : UserData
deriving DecidableEq, Repr

/-- A message delivered to one connection: target socket id, event name,
payload. -/
structure Msg where
  target : String
  event : String
  payload : Obj
deriving DecidableEq, Repr

/-- State of the `WebSocketService` singleton plus the socket.io server it
drives: `io` is whether `initialize(server)` has run (`this.io !== null`),
`connectedUsers` maps user id to the array of that user's socket ids,
`userSockets` maps socket id to its subscriber identity, `rooms` is the
socket.io adapter's room-membership table, and `sockets` is the server's
set of currently connected socket ids. -/
structure WSState where
  io : Bool
  connectedUsers : List (String × List String)
  userSockets : List (String × UserData)
  rooms : List (String × List String)
  sockets : List String
deriving DecidableEq, Repr

/-- The `WebSocketService` constructor: `this.io = null` and both maps
empty (deviceController.js lines 325-329); no rooms, no sockets. -/
def serviceNew : WSState :=
  { io := false, connectedUsers := [], userSockets := [], rooms := [], sockets := [] }

/-- `initialize(server)`: attaches the socket.io server (`this.io`
becomes non-null). -/
def initServer (s : WSState) : WSState :=
  { s with io := true }

/-- Members of a room (empty when the room does not exist). -/
def roomMembers (r : String) (s : WSState) : List String :=
  (mapGet r s.rooms).getD []

/-- `socket.join(room)`: socket.io rooms are sets, so the id is added only
if absent. -/
def joinRoom (sid r : String) (s : WSState) : WSState :=
  let ms := (mapGet r s.rooms).getD []
  if sid ∈ ms then s else { s with rooms := mapSet r (ms ++ [sid]) s.rooms }

/-- `io.to(room).emit(event, payload)`: one message per room member. -/
def emitToRoom (r evt : String) (p : Obj) (s : WSState) : List Msg :=
  (roomMembers r s).map (fun sid => ⟨sid, evt, p⟩)

/-- `io.emit(event, payload)`: one message per connected socket. -/
def emitToAll (evt : String) (p : Obj) (s : WSState) : List Msg :=
  s.sockets.map (fun sid => ⟨sid, evt, p⟩)

/-- `handleConnection(socket)` (lines 383-431): record the socket id under
its user, store the subscriber identity in `userSockets`, join the
organization room and the user room, and emit the `connected`
confirmation. -/
def handleConnection (s : WSState) (sock : Socket) (now : Value) : WSState × List Msg :=
  let uid := sock.user.userId
  let lst := (mapGet uid s.connectedUsers).getD []
  let s1 := { s with
    connectedUsers := mapSet uid (lst ++ [sock.id]) s.connectedUsers
    userSockets := mapSet sock.id sock.user s.userSockets }
  let s2 := joinRoom sock.id ("org_" ++ sock.user.organization) s1
  let s3 := joinRoom sock.id ("user_" ++ uid) s2
  (s3, [⟨sock.id, "connected",
        [("message", .str "Connected to real-time updates"),
         ("userId", .str uid), ("timestamp", now)]⟩])

/-- A client connection being accepted: the socket.io server adds the
socket to its set, then fires the `connection` event, which runs
`handleConnection`. -/
def acceptConnection (s : WSState) (sock : Socket) (now : Value) : WSState × List Msg :=
  handleConnection { s with sockets := if sock.id ∈ s.sockets then s.sockets else s.sockets ++ [sock.id] } sock now

/-- `handleDeviceSubscription(socket, data)` (lines 434-451): join room
`device_${deviceId}_${user.organization}` for each requested device id,
then emit `subscription:success`. -/
def handleDeviceSubscription (s : WSState) (sock : Socket) (deviceIds : List String) (now : Value) :
    WSState × List Msg :=
  let s1 := deviceIds.foldl
    (fun st d => joinRoom sock.id ("device_" ++ d ++ "_" ++ sock.user.organization) st) s
  (s1, [⟨sock.id, "subscription:success",
        [("message", .str "Subscribed to device updates"),
         ("deviceIds", .strs deviceIds), ("timestamp", now)]⟩])

/-- `handleDisconnection(socket, reason)` (lines 471-494): if the socket
is known, remove its id from the user's socket array (dropping the user
entry when the array becomes empty) and delete the socket from
`userSockets`; otherwise do nothing. -/
def handleDisconnection (s : WSState) (sid : String) : WSState :=
  match mapGet sid s.userSockets with
  | none => s
  | some ud =>
    let uid := ud.userId
    let cu := match mapGet uid s.connectedUsers with
      | none => s.connectedUsers
      | some socketIds =>
          let socketIds' := socketIds.erase sid
          if socketIds'.isEmpty then mapDelete uid s.connectedUsers
          else mapSet uid socketIds' s.connectedUsers
    { s with connectedUsers := cu, userSockets := mapDelete sid s.userSockets }

/-- Remove a socket id from every room's member list. -/
def roomsErase (sid : String) (rooms : List (String × List String)) :
    List (String × List String) :=
  rooms.map (fun p => (p.1, p.2.filter (fun x => x ≠ sid)))

/-- The socket.io runtime's cleanup after a socket disconnects: the socket
leaves every room and the server's socket set. -/
def scrub (sid : String) (s : WSState) : WSState :=
  { s with
    rooms := roomsErase sid s.rooms
    sockets := s.sockets.filter (fun x => x ≠ sid) }

/-- A socket disconnecting: the `disconnect` handler runs, then the
socket.io runtime removes the socket from every room and from the
server's socket set. -/
def disconnect (s : WSState) (sid : String) : WSState :=
  scrub sid (handleDisconnection s sid)

/-- The spec's `ConnectionsForOrganization(O)` read path: the sockets the
broadcast operations reach through room `org_O`. -/
def connectionsForOrganization (org : String) (s : WSState) : List String :=
  roomMembers ("org_" ++ org) s

/-- Payload built by `broadcastDeviceHeartbeat` (lines 500-505):
`{ deviceId, status: 'online', ...data, timestamp: new Date() }`. -/
def heartbeatPayload (deviceId : String) (data : Obj) (now : Value) : Obj :=
  mapSet "timestamp" now
    (objSpread [("deviceId", .str deviceId), ("status", .str "online")] data)

/-- `broadcastDeviceHeartbeat(deviceId, organization, data)` (lines
497-512): guard on `this.io`, then emit `device:heartbeat` to the
organization room and to the device room. -/
def broadcastDeviceHeartbeat (s : WSState) (deviceId organization : String) (data : Obj)
    (now : Value) : WSState × List Msg :=
  if s.io = false then (s, []) else
  let payload := heartbeatPayload deviceId data now
  (s, emitToRoom ("org_" ++ organization) "device:heartbeat" payload s
      ++ emitToRoom ("device_" ++ deviceId ++ "_" ++ organization) "device:heartbeat" payload s)

/-- Payload built by `broadcastDeviceStatusChange` (lines 518-524):
`{ deviceId, oldStatus, newStatus, ...data, timestamp: new Date() }`. -/
def statusChangePayload (deviceId oldStatus newStatus : String) (data : Obj) (now : Value) : Obj :=
  mapSet "timestamp" now
    (objSpread [("deviceId", .str deviceId), ("oldStatus", .str oldStatus),
                ("newStatus", .str newStatus)] data)

/-- `broadcastDeviceStatusChange(deviceId, organization, oldStatus,
newStatus, data)` (lines 515-533): guard on `this.io`, then emit
`device:status_change` to the organization room and to the device room. -/
def broadcastDeviceStatusChange (s : WSState) (deviceId organization oldStatus newStatus : String)
    (data : Obj) (now : Value) : WSState × List Msg :=
  if s.io = false then (s, []) else
  let payload := statusChangePayload deviceId oldStatus newStatus data now
  (s, emitToRoom ("org_" ++ organization) "device:status_change" payload s
      ++ emitToRoom ("device_" ++ deviceId ++ "_" ++ organization) "device:status_change" payload s)

/-- `broadcastDeviceError(deviceId, organization, error)` (lines 536-553):
the payload is `{ deviceId, error: error.message || error, severity:
error.severity || 'error', timestamp: new Date() }`; `errMessage` and
`severity` stand for the two resolved `||` expressions.  Emits
`device:error` to the organization room and the device room. -/
def broadcastDeviceError (s : WSState) (deviceId organization : String)
    (errMessage severity : Value) (now : Value) : WSState × List Msg :=
  if s.io = false then (s, []) else
  let payload : Obj := [("deviceId", .str deviceId), ("error", errMessage),
                        ("severity", severity), ("timestamp", now)]
  (s, emitToRoom ("org_" ++ organization) "device:error" payload s
      ++ emitToRoom ("device_" ++ deviceId ++ "_" ++ organization) "device:error" payload s)

/-- `broadcastToOrganization(organization, event, data)` (lines 556-560). -/
def broadcastToOrganization (s : WSState) (organization event : String) (data : Obj) :
    WSState × List Msg :=
  if s.io = false then (s, []) else
  (s, emitToRoom ("org_" ++ organization) event data s)

/-- `broadcastToUser(userId, event, data)` (lines 563-567). -/
def broadcastToUser (s : WSState) (userId event : String) (data : Obj) : WSState × List Msg :=
  if s.io = false then (s, []) else
  (s, emitToRoom ("user_" ++ userId) event data s)

/-- `broadcastSystemNotification(message, severity, targetOrganization)`
(lines 570-586): guard on `this.io`; with a target organization the
`system:notification` payload goes to that organization's room, otherwise
`io.emit` sends it to every connected socket. -/
def broadcastSystemNotification (s : WSState) (message severity : Value)
    (targetOrganization : Option String) (now : Value) : WSState × List Msg :=
  if s.io = false then (s, []) else
  let payload : Obj := [("message", message), ("severity", severity), ("timestamp", now)]
  match targetOrganization with
  | some org => (s, emitToRoom ("org_" ++ org) "system:notification" payload s)
  | none => (s, emitToAll "system:notification" payload s)

/-- `handleDeviceStatusUpdate(socket, data)` (lines 454-468): rebroadcast
a client-sent status update to the client's organization room. -/
def handleDeviceStatusUpdate (s : WSState) (sock : Socket) (deviceId status message : String)
    (now : Value) : WSState × List Msg :=
  broadcastToOrganization s sock.user.organization "device:status_update"
    [("deviceId", .str deviceId), ("status", .str status), ("message", .str message),
     ("updatedBy", .str sock.user.userId), ("timestamp", now)]

/-- Fields a client may send with an inbound event. -/
structure EventData where
  deviceIds : List String
  deviceId : String
  status : String
  message : String
deriving DecidableEq, Repr

/-- Dispatch of an inbound client event.  `handleConnection` registers
listeners only for `subscribe:devices`, `device:status` and `heartbeat`
(plus the `disconnect` and `error` lifecycle events, lines 408-430); any
other event name has no listener and socket.io ignores it. -/
def onClientEvent (s : WSState) (sock : Socket) (name : String) (d : EventData) (now : Value) :
    WSState × List Msg :=
  if name = "subscribe:devices" then handleDeviceSubscription s sock d.deviceIds now
  else if name = "device:status" then handleDeviceStatusUpdate s sock d.deviceId d.status d.message now
  else if name = "heartbeat" then (s, [⟨sock.id, "heartbeat_ack", [("timestamp", now)]⟩])
  else (s, [])

/-! ### Concrete scenario states -/

/-- A connection of organization `Bo` that subscribes to devices `DEV`
and `DEV_A` (device ids may contain underscores, per the repository's
device-id validation pattern). -/
def sockX : Socket := ⟨"s1", ⟨"u1", "Bo", "user"⟩⟩

def stX : WSState :=
  (handleDeviceSubscription
    (acceptConnection (initServer serviceNew) sockX (Value.date 0)).1
    sockX ["DEV", "DEV_A"] (Value.date 0)).1

/-- A connection of organization `TechCorp` subscribed to device `X`
(the spec's scenario for deduplicated delivery). -/
def sockT : Socket := ⟨"t1", ⟨"u2", "TechCorp", "user"⟩⟩

def stT : WSState :=
  (handleDeviceSubscription
    (acceptConnection (initServer serviceNew) sockT (Value.date 0)).1
    sockT ["X"] (Value.date 0)).1

/-- A registered connection of organization `OrgH`, used for the payload
round-trip scenario. -/
def sockH : Socket := ⟨"h1", ⟨"u3", "OrgH", "user"⟩⟩

def stH : WSState := (acceptConnection (initServer serviceNew) sockH (Value.date 0)).1

/-- Concrete socket and state used by the C10 witness: one registered
connection on an initialized service. -/
def sockW : Socket := ⟨"w1", ⟨"uw", "OrgW", "user"⟩⟩

def stW : WSState := (acceptConnection (initServer serviceNew) sockW (Value.date 0)).1

/-! ### Broadcast engine with bounded outbound queues

The repository delegates per-connection outbound buffering to the
socket.io transport, so no buffer bound or overflow handling appears in
the repository's own source.  The definitions below are therefore
modelled from the spec (sections 3, 4.3 and 8): each connection owns a
bounded outbound queue capped at a fixed constant; a publish enqueues
non-blockingly on every target and forcibly disconnects (removes from
all indices) a target whose queue is already full, leaving delivery to
the other targets unaffected. -/

/-- Modelled from the spec: the fixed constant capacity of a
connection's outbound buffer (the spec fixes only that it is a
constant; the numeric value is arbitrary in this model). -/
def queueCapacity : Nat := 4

/-- Modelled from the spec: a live connection of the Broadcast Engine —
its subscriber organization and its bounded outbound queue of serialized
events. -/
structure EngineConn where
  org : String
  queue : List Obj
deriving DecidableEq, Repr

/-- Modelled from the spec: the Broadcast Engine's registry of live
connections, keyed by connection id. -/
structure Engine where
  conns : List (String × EngineConn)
deriving DecidableEq, Repr

/-- Modelled from the spec: the initial engine state with no
connections. -/
def engineInit : Engine := ⟨[]⟩

/-- Modelled from the spec: `Register` — store a connection with an
empty outbound queue. -/
def engineRegister (e : Engine) (cid org : String) : Engine :=
  ⟨mapSet cid ⟨org, []⟩ e.conns⟩

/-- Modelled from the spec: `Unregister` — idempotent removal from the
index. -/
def engineUnregister (e : Engine) (cid : String) : Engine :=
  ⟨mapDelete cid e.conns⟩

/-- Modelled from the spec: the per-connection drain task consumes one
event from the connection's outbound queue. -/
def engineDrain (e : Engine) (cid : String) : Engine :=
  ⟨e.conns.map (fun p => if p.1 = cid then (p.1, ⟨p.2.org, p.2.queue.drop 1⟩) else p)⟩

/-- Modelled from the spec: `Publish` — non-blocking enqueue on every
connection of the event's organization; a target whose queue is already
full is forcibly disconnected (removed from the index); connections of
other organizations are untouched. -/
def enginePublish (e : Engine) (org : String) (ev : Obj) : Engine :=
  ⟨e.conns.filterMap (fun p =>
    if p.2.org = org then
      if p.2.queue.length < queueCapacity then some (p.1, ⟨p.2.org, p.2.queue ++ [ev]⟩)
      else none
    else some p)⟩

/-- Engine states reachable through the engine's operations. -/
inductive EngineReachable : Engine → Prop where
  | init : EngineReachable engineInit
  | register {e : Engine} {cid org : String} (h : EngineReachable e) :
      EngineReachable (engineRegister e cid org)
  | unregister {e : Engine} {cid : String} (h : EngineReachable e) :
      EngineReachable (engineUnregister e cid)
  | drain {e : Engine} {cid : String} (h : EngineReachable e) :
      EngineReachable (engineDrain e cid)
  | publish {e : Engine} {org : String} {ev : Obj} (h : EngineReachable e) :
      EngineReachable (enginePublish e org ev)

/-- Engine invariant: connection ids are distinct and every outbound
queue respects the capacity. -/
def EngineInv (e : Engine) : Prop :=
  (e.conns.map Prod.fst).Nodup ∧ ∀ p ∈ e.conns, p.2.queue.length ≤ queueCapacity

/-- Two connections of organization `O1` on a fresh engine. -/
def engineDemo : Engine :=
  engineRegister (engineRegister engineInit "c1" "O1") "c2" "O1"

def evDemo : Obj := [("seq", Value.num 0)]

/-- `engineDemo` after four publishes to `O1` and four drains of `c2`:
connection `c1` sits at a saturated queue while `c2` is empty. -/
def engineSat : Engine :=
  engineDrain (engineDrain (engineDrain (engineDrain
    (enginePublish (enginePublish (enginePublish (enginePublish
      engineDemo "O1" evDemo) "O1" evDemo) "O1" evDemo) "O1" evDemo)
    "c2") "c2") "c2") "c2"

/-! ### Lemmas about the map and room primitives -/

theorem mapGet_mapSet (k k' : String) (v : α) (m : List (String × α)) :
    mapGet k (mapSet k' v m) = if k' = k then some v else mapGet k m := by
  induction m with
  | nil => simp [mapGet, mapSet]
  | cons p t ih =>
    obtain ⟨k1, v1⟩ := p
    by_cases h1 : k1 = k'
    · subst h1
      by_cases h2 : k1 = k <;> simp [mapGet, mapSet, h2]
    · by_cases h2 : k1 = k
      · subst h2
        have hkk : ¬ k' = k1 := fun h => h1 h.symm
        simp [mapGet, mapSet, h1, hkk]
      · simp [mapGet, mapSet, h1, h2, ih]

theorem mapGet_mapDelete_self (k : String) (m : List (String × α)) :
    mapGet k (mapDelete k m) = none := by
  induction m with
  | nil => rfl
  | cons p t ih =>
    by_cases h : p.1 = k
    · simpa [mapDelete, List.filter_cons, h] using ih
    · simpa [mapDelete, List.filter_cons, h, mapGet] using ih

theorem mapGet_map_snd (f : α → β) (k : String) (m : List (String × α)) :
    mapGet k (m.map (fun p => (p.1, f p.2))) = (mapGet k m).map f := by
  induction m with
  | nil => rfl
  | cons p t ih => by_cases h : p.1 = k <;> simp [mapGet, h, ih]

theorem filter_idem (q : α → Bool) (l : List α) :
    (l.filter q).filter q = l.filter q := by
  induction l with
  | nil => rfl
  | cons a t ih =>
    by_cases h : q a <;> simp [List.filter_cons, h, ih]

theorem mem_roomMembers_joinRoom_self (sid r : String) (s : WSState) :
    sid ∈ roomMembers r (joinRoom sid r s) := by
  unfold joinRoom roomMembers
  by_cases hm : sid ∈ (mapGet r s.rooms).getD []
  · simp [hm]
  · simp [hm, mapGet_mapSet]

theorem mem_roomMembers_joinRoom_mono (x sid r r' : String) (s : WSState)
    (h : x ∈ roomMembers r s) : x ∈ roomMembers r (joinRoom sid r' s) := by
  unfold joinRoom roomMembers
  by_cases hm : sid ∈ (mapGet r' s.rooms).getD []
  · simpa [hm] using h
  · by_cases hr : r' = r
    · subst hr
      simp only [hm, if_false, mapGet_mapSet, if_pos rfl, Option.getD_some]
      exact List.mem_append_left _ h
    · simpa [hm, mapGet_mapSet, hr] using h

theorem roomMembers_scrub (r sid : String) (s : WSState) :
    roomMembers r (scrub sid s) = (roomMembers r s).filter (fun x => x ≠ sid) := by
  unfold scrub roomsErase roomMembers
  rw [show (fun (p : String × List String) => (p.1, p.2.filter (fun x => x ≠ sid)))
        = (fun p => (p.1, (fun l => l.filter (fun x => x ≠ sid)) p.2)) from rfl,
      mapGet_map_snd]
  cases mapGet r s.rooms <;> simp

theorem handleDisconnection_of_none {s : WSState} {sid : String}
    (h : mapGet sid s.userSockets = none) : handleDisconnection s sid = s := by
  unfold handleDisconnection
  rw [h]

theorem mapGet_userSockets_handleDisconnection (s : WSState) (sid : String) :
    mapGet sid (handleDisconnection s sid).userSockets = none := by
  unfold handleDisconnection
  cases h : mapGet sid s.userSockets with
  | none => simpa using h
  | some ud => simp [mapGet_mapDelete_self]

theorem scrub_idem (sid : String) (s : WSState) :
    scrub sid (scrub sid s) = scrub sid s := by
  unfold scrub roomsErase
  simp [List.map_map, filter_idem, Function.comp]

/-! ### Claim theorems -/

/-- C4: for every connection whose identity has organization O,
immediately after registration the connection set of organization O
contains it, and immediately after unregistration (for any organization)
it does not. -/
theorem org_index_after_register_and_unregister :
    (∀ (s : WSState) (sock : Socket) (now : Value),
        sock.id ∈ connectionsForOrganization sock.user.organization
          (acceptConnection s sock now).1) ∧
    (∀ (s : WSState) (sid org : String),
        sid ∉ connectionsForOrganization org (disconnect s sid)) := by
  constructor
  · intro s sock now
    show sock.id ∈ roomMembers ("org_" ++ sock.user.organization) _
    exact mem_roomMembers_joinRoom_mono _ _ _ _ _
      (mem_roomMembers_joinRoom_self _ _ _)
  · intro s sid org
    show sid ∉ roomMembers ("org_" ++ org) (scrub sid (handleDisconnection s sid))
    rw [roomMembers_scrub]
    simp

/-- C5: unregistering the same connection id twice, from any registry
state, is a total operation with the same result as unregistering once
(idempotent removal from the user index, the socket index, every room and
the socket set). -/
theorem unregister_idempotent (s : WSState) (sid : String) :
    disconnect (disconnect s sid) sid = disconnect s sid := by
  have h1 : mapGet sid (disconnect s sid).userSockets = none :=
    mapGet_userSockets_handleDisconnection s sid
  calc disconnect (disconnect s sid) sid
      = scrub sid (handleDisconnection (disconnect s sid) sid) := rfl
    _ = scrub sid (disconnect s sid) := by rw [handleDisconnection_of_none h1]
    _ = scrub sid (scrub sid (handleDisconnection s sid)) := rfl
    _ = scrub sid (handleDisconnection s sid) := scrub_idem _ _
    _ = disconnect s sid := rfl

/-- C5 witness: idempotence evaluated at a concrete registered state. -/
theorem unregister_idempotent_witness :
    disconnect (disconnect (acceptConnection serviceNew ⟨"s9", ⟨"u9", "OrgZ", "user"⟩⟩
        (Value.date 0)).1 "s9") "s9"
      = disconnect (acceptConnection serviceNew ⟨"s9", ⟨"u9", "OrgZ", "user"⟩⟩
        (Value.date 0)).1 "s9" :=
  unregister_idempotent _ "s9"

/-- C9: every broadcast operation invoked before `initialize` (while
`this.io` is null) returns without error and leaves the state unchanged,
emitting nothing. -/
theorem broadcast_noop_when_uninitialized (s : WSState) (h : s.io = false) :
    (∀ d o data now, broadcastDeviceHeartbeat s d o data now = (s, [])) ∧
    (∀ d o os ns data now, broadcastDeviceStatusChange s d o os ns data now = (s, [])) ∧
    (∀ d o em sev now, broadcastDeviceError s d o em sev now = (s, [])) ∧
    (∀ o e data, broadcastToOrganization s o e data = (s, [])) ∧
    (∀ u e data, broadcastToUser s u e data = (s, [])) ∧
    (∀ m sev t now, broadcastSystemNotification s m sev t now = (s, [])) := by
  refine ⟨?_, ?_, ?_, ?_, ?_, ?_⟩ <;> intros <;>
    simp [broadcastDeviceHeartbeat, broadcastDeviceStatusChange, broadcastDeviceError,
          broadcastToOrganization, broadcastToUser, broadcastSystemNotification, h]

/-- C9 witness: the six broadcasts are no-ops on the freshly constructed
service, whose `io` handle is still null. -/
theorem broadcast_noop_when_uninitialized_witness :
    (∀ d o data now, broadcastDeviceHeartbeat serviceNew d o data now = (serviceNew, [])) ∧
    (∀ d o os ns data now,
        broadcastDeviceStatusChange serviceNew d o os ns data now = (serviceNew, [])) ∧
    (∀ d o em sev now, broadcastDeviceError serviceNew d o em sev now = (serviceNew, [])) ∧
    (∀ o e data, broadcastToOrganization serviceNew o e data = (serviceNew, [])) ∧
    (∀ u e data, broadcastToUser serviceNew u e data = (serviceNew, [])) ∧
    (∀ m sev t now, broadcastSystemNotification serviceNew m sev t now = (serviceNew, [])) :=
  broadcast_noop_when_uninitialized serviceNew rfl

/-- C10: with no target organization, `broadcastSystemNotification`
delivers to every connected socket regardless of organization; with a
target organization, delivery is restricted to that organization's room. -/
theorem system_notification_scope (s : WSState) (message severity now : Value)
    (h : s.io = true) :
    (∀ sid, sid ∈ s.sockets →
        (⟨sid, "system:notification",
           [("message", message), ("severity", severity), ("timestamp", now)]⟩ : Msg)
          ∈ (broadcastSystemNotification s message severity none now).2) ∧
    (∀ org sid evt p,
        (⟨sid, evt, p⟩ : Msg) ∈ (broadcastSystemNotification s message severity (some org) now).2 →
        sid ∈ roomMembers ("org_" ++ org) s) := by
  constructor
  · intro sid hs
    simp only [broadcastSystemNotification, h, Bool.true_eq_false, if_false, emitToAll]
    exact List.mem_map.mpr ⟨sid, hs, rfl⟩
  · intro org sid evt p hm
    simp only [broadcastSystemNotification, h, Bool.true_eq_false, if_false, emitToRoom] at hm
    obtain ⟨a, ha, he⟩ := List.mem_map.mp hm
    cases he
    exact ha

/-! ### Lemmas about object spread -/

theorem mapGet_eq_none_of_not_mem_keys (k : String) (m : List (String × α))
    (h : k ∉ m.map Prod.fst) : mapGet k m = none := by
  induction m with
  | nil => rfl
  | cons p t ih =>
    simp only [List.map_cons, List.mem_cons, not_or] at h
    have hne : ¬ p.1 = k := fun he => h.1 he.symm
    simpa [mapGet, hne] using ih h.2

theorem mapGet_objSpread_of_none (base fields : Obj) (k : String)
    (h : mapGet k fields = none) : mapGet k (objSpread base fields) = mapGet k base := by
  induction fields generalizing base with
  | nil => rfl
  | cons p t ih =>
    have hne : ¬ p.1 = k := by
      intro he
      simp [mapGet, he] at h
    have ht : mapGet k t = none := by simpa [mapGet, hne] using h
    rw [show objSpread base (p :: t) = objSpread (mapSet p.1 p.2 base) t from rfl,
        ih _ ht, mapGet_mapSet]
    simp [hne]

theorem mapGet_objSpread_of_some (base fields : Obj) (k : String) (v : Value)
    (hnd : (fields.map Prod.fst).Nodup) (h : mapGet k fields = some v) :
    mapGet k (objSpread base fields) = some v := by
  induction fields generalizing base with
  | nil => simp [mapGet] at h
  | cons p t ih =>
    obtain ⟨k1, v1⟩ := p
    simp only [List.map_cons, List.nodup_cons] at hnd
    by_cases he : k1 = k
    · subst he
      have hv : v1 = v := by simpa [mapGet] using h
      subst hv
      have ht : mapGet k1 t = none := mapGet_eq_none_of_not_mem_keys _ _ hnd.1
      rw [show objSpread base ((k1, v1) :: t) = objSpread (mapSet k1 v1 base) t from rfl,
          mapGet_objSpread_of_none _ _ _ ht, mapGet_mapSet]
      simp
    · have ht : mapGet k t = some v := by simpa [mapGet, he] using h
      rw [show objSpread base ((k1, v1) :: t) = objSpread (mapSet k1 v1 base) t from rfl]
      exact ih _ hnd.2 ht

/-- C10 witness: an untargeted system notification reaches the registered
socket of the concrete state. -/
theorem system_notification_scope_witness :
    (⟨"w1", "system:notification",
       [("message", Value.str "maintenance"), ("severity", Value.str "info"),
        ("timestamp", Value.date 1)]⟩ : Msg)
      ∈ (broadcastSystemNotification stW (Value.str "maintenance") (Value.str "info")
          none (Value.date 1)).2 :=
  (system_notification_scope stW (Value.str "maintenance") (Value.str "info")
    (Value.date 1) (by decide)).1 "w1" (by decide)

/-- C1: evaluation of the code at a failing input.  The connection `s1`
has organization `Bo` and subscribed to devices `DEV` and `DEV_A`, so it
is in room `device_DEV_A_Bo`.  A heartbeat for device `DEV` of
organization `A_Bo` is emitted to room `device_` ++ `DEV` ++ `_` ++
`A_Bo`, the same string, and therefore reaches `s1` although its
organization differs from the event's. -/
theorem heartbeat_cross_org_delivery :
    mapGet "s1" stX.userSockets = some ⟨"u1", "Bo", "user"⟩ ∧
    "Bo" ≠ "A_Bo" ∧
    ∃ m ∈ (broadcastDeviceHeartbeat stX "DEV" "A_Bo" [] (Value.date 1)).2,
      m.target = "s1" := by decide

/-- C3: evaluation of the code at a failing input.  `s1` (organization
`Bo`) is subscribed to device `DEV` — it is a member of room
`device_DEV_Bo` — yet it receives a status-change event published for
device `DEV` in the different organization `A_Bo`, through the colliding
room name `device_DEV_A_Bo` joined for its `DEV_A` subscription. -/
theorem status_change_cross_org_delivery :
    "s1" ∈ roomMembers ("device_" ++ "DEV" ++ "_" ++ "Bo") stX ∧
    mapGet "s1" stX.userSockets = some ⟨"u1", "Bo", "user"⟩ ∧
    "Bo" ≠ "A_Bo" ∧
    ∃ m ∈ (broadcastDeviceStatusChange stX "DEV" "A_Bo" "online" "offline" []
            (Value.date 1)).2,
      m.target = "s1" := by decide

/-- C2 counterexample: connection `t1` (organization `TechCorp`,
subscribed to device `X`) receives a single published status-change event
for device `X` twice, not once: the organization-room emit and the
device-room emit are separate deliveries, with no deduplication. -/
theorem status_change_no_dedup_cex :
    ¬ ((broadcastDeviceStatusChange stT "X" "TechCorp" "online" "offline" []
          (Value.date 1)).2.countP (fun m => m.target = "t1") = 1) ∧
    (broadcastDeviceStatusChange stT "X" "TechCorp" "online" "offline" []
        (Value.date 1)).2.countP (fun m => m.target = "t1") = 2 := by decide

/-- C2 amended: a connection that appears once in the organization room
and once in the device room receives the event exactly twice — the two
target sets are emitted to separately and are not deduplicated. -/
theorem status_change_double_delivery (s : WSState) (h : s.io = true)
    (sid did org os ns : String) (data : Obj) (now : Value)
    (horg : (connectionsForOrganization org s).countP (fun x => x = sid) = 1)
    (hdev : (roomMembers ("device_" ++ did ++ "_" ++ org) s).countP (fun x => x = sid) = 1) :
    (broadcastDeviceStatusChange s did org os ns data now).2.countP
      (fun m => m.target = sid) = 2 := by
  have hcount : ∀ (r evt : String) (p : Obj),
      (emitToRoom r evt p s).countP (fun m => m.target = sid)
        = (roomMembers r s).countP (fun x => x = sid) := by
    intro r evt p
    unfold emitToRoom
    rw [List.countP_map]
    rfl
  simp only [broadcastDeviceStatusChange, h, Bool.true_eq_false, if_false]
  rw [List.countP_append, hcount, hcount]
  rw [show connectionsForOrganization org s = roomMembers ("org_" ++ org) s from rfl] at horg
  omega

/-- C2 amended witness: the concrete `TechCorp` scenario, where `t1`
matches both target sets once, receives exactly two copies. -/
theorem status_change_double_delivery_witness :
    (broadcastDeviceStatusChange stT "X" "TechCorp" "online" "offline" []
        (Value.date 2)).2.countP (fun m => m.target = "t1") = 2 :=
  status_change_double_delivery stT (by decide) "t1" "X" "TechCorp" "online" "offline"
    [] (Value.date 2) (by decide) (by decide)

/-- C7 counterexample: the publisher supplies a heartbeat payload with a
`timestamp` field, and the delivered message carries the server timestamp
instead: `timestamp: new Date()` is assigned after `...data`. -/
theorem heartbeat_timestamp_overwritten_cex :
    (∃ m ∈ (broadcastDeviceHeartbeat stH "DEVH" "OrgH"
              [("timestamp", Value.date 5)] (Value.date 99)).2, m.target = "h1") ∧
    (∀ m ∈ (broadcastDeviceHeartbeat stH "DEVH" "OrgH"
              [("timestamp", Value.date 5)] (Value.date 99)).2,
        mapGet "timestamp" m.payload = some (Value.date 99)) ∧
    Value.date 99 ≠ Value.date 5 := by decide

/-- C7 amended: in heartbeat and status-change wire payloads every
publisher-supplied field except one named `timestamp` appears unchanged
(publisher fields even override the server's `deviceId`, `status`,
`oldStatus` and `newStatus` fields), while a publisher field named
`timestamp` is overwritten by the server timestamp. -/
theorem payload_roundtrip_except_timestamp (did os ns : String) (data : Obj) (now : Value)
    (hnd : (data.map Prod.fst).Nodup) :
    (∀ k v, mapGet k data = some v → k ≠ "timestamp" →
        mapGet k (heartbeatPayload did data now) = some v ∧
        mapGet k (statusChangePayload did os ns data now) = some v) ∧
    mapGet "timestamp" (heartbeatPayload did data now) = some now ∧
    mapGet "timestamp" (statusChangePayload did os ns data now) = some now := by
  refine ⟨?_, ?_, ?_⟩
  · intro k v hk hne
    have hne' : ¬ ("timestamp" = k) := fun he => hne he.symm
    constructor
    · unfold heartbeatPayload
      rw [mapGet_mapSet]
      simp only [hne', if_false]
      exact mapGet_objSpread_of_some _ _ _ _ hnd hk
    · unfold statusChangePayload
      rw [mapGet_mapSet]
      simp only [hne', if_false]
      exact mapGet_objSpread_of_some _ _ _ _ hnd hk
  · unfold heartbeatPayload
    rw [mapGet_mapSet]
    simp
  · unfold statusChangePayload
    rw [mapGet_mapSet]
    simp

/-- C7 amended witness: a concrete `temp` field survives into both
payloads and the `timestamp` field carries the server time. -/
theorem payload_roundtrip_except_timestamp_witness :
    mapGet "temp" (heartbeatPayload "DX" [("temp", Value.num 21)] (Value.date 9))
        = some (Value.num 21) ∧
    mapGet "timestamp" (heartbeatPayload "DX" [("temp", Value.num 21)] (Value.date 9))
        = some (Value.date 9) :=
  ⟨((payload_roundtrip_except_timestamp "DX" "on" "off" [("temp", Value.num 21)]
      (Value.date 9) (by decide)).1 "temp" (Value.num 21) (by decide) (by decide)).1,
   (payload_roundtrip_except_timestamp "DX" "on" "off" [("temp", Value.num 21)]
      (Value.date 9) (by decide)).2.1⟩

/-- C8 counterexample: in a state where `t1` is subscribed to device `X`,
an `unsubscribe:devices` request is ignored — the state is unchanged and
the subscription entry (membership of room `device_X_TechCorp`) remains. -/
theorem unsubscribe_request_ignored_cex :
    onClientEvent stT sockT "unsubscribe:devices" ⟨["X"], "", "", ""⟩ (Value.date 1)
        = (stT, []) ∧
    "t1" ∈ roomMembers ("device_" ++ "X" ++ "_" ++ "TechCorp")
      (onClientEvent stT sockT "unsubscribe:devices" ⟨["X"], "", "", ""⟩ (Value.date 1)).1 := by
  decide

/-- C8 amended: the core provides no unsubscribe operation.  An
unsubscribe request from a client has no registered listener and is
ignored without error and without touching any index; device-subscription
entries are removed only when the connection disconnects. -/
theorem no_unsubscribe_operation :
    (∀ (s : WSState) (sock : Socket) (d : EventData) (now : Value),
        onClientEvent s sock "unsubscribe:devices" d now = (s, [])) ∧
    (∀ (s : WSState) (sid r : String), sid ∉ roomMembers r (disconnect s sid)) := by
  constructor
  · intro s sock d now
    rfl
  · intro s sid r
    show sid ∉ roomMembers r (scrub sid (handleDisconnection s sid))
    rw [roomMembers_scrub]
    simp

/-! ### Lemmas about the engine -/

theorem keys_mapSet (k : String) (v : α) (m : List (String × α)) :
    (mapSet k v m).map Prod.fst =
      if k ∈ m.map Prod.fst then m.map Prod.fst else m.map Prod.fst ++ [k] := by
  induction m with
  | nil => simp [mapSet]
  | cons p t ih =>
    obtain ⟨k1, v1⟩ := p
    by_cases h : k1 = k
    · subst h
      simp [mapSet]
    · have hne : ¬ k = k1 := fun he => h he.symm
      by_cases hm : k ∈ t.map Prod.fst <;> simp [mapSet, h, hne, ih, hm]

theorem nodup_keys_mapSet {m : List (String × α)} (k : String) (v : α)
    (h : (m.map Prod.fst).Nodup) : ((mapSet k v m).map Prod.fst).Nodup := by
  rw [keys_mapSet]
  by_cases hm : k ∈ m.map Prod.fst
  · simpa [hm] using h
  · simp only [hm, if_false]
    rw [List.nodup_append]
    refine ⟨h, List.nodup_singleton _, fun a ha hb => ?_⟩
    simp only [List.mem_singleton] at hb
    subst hb
    exact hm ha

theorem mem_mapSet {p : String × α} {k : String} {v : α} {m : List (String × α)} :
    p ∈ mapSet k v m → p = (k, v) ∨ p ∈ m := by
  induction m with
  | nil =>
    intro h
    simpa [mapSet] using h
  | cons q t ih =>
    obtain ⟨k1, v1⟩ := q
    intro h
    by_cases hq : k1 = k
    · subst hq
      simp only [mapSet, eq_self_iff_true, if_true, List.mem_cons] at h
      rcases h with h | h
      · exact Or.inl h
      · exact Or.inr (List.mem_cons_of_mem _ h)
    · simp only [mapSet, hq, if_false, List.mem_cons] at h
      rcases h with h | h
      · exact Or.inr (List.mem_cons.mpr (Or.inl h))
      · rcases ih h with h1 | h1
        · exact Or.inl h1
        · exact Or.inr (List.mem_cons_of_mem _ h1)

theorem keys_filterMap_sublist (f : (String × α) → Option (String × β))
    (hf : ∀ a b, f a = some b → b.1 = a.1) (m : List (String × α)) :
    ((m.filterMap f).map Prod.fst).Sublist (m.map Prod.fst) := by
  induction m with
  | nil => simp
  | cons a t ih =>
    cases hfa : f a with
    | none =>
      rw [List.filterMap_cons, hfa]
      exact ih.cons _
    | some b =>
      rw [List.filterMap_cons, hfa, List.map_cons, List.map_cons, hf a b hfa]
      exact ih.cons₂ _

theorem mapGet_filterMap (f : (String × α) → Option (String × β))
    (hf : ∀ a b, f a = some b → b.1 = a.1) (m : List (String × α))
    (hnd : (m.map Prod.fst).Nodup) (k : String) :
    mapGet k (m.filterMap f) =
      match mapGet k m with
      | none => none
      | some v => (f (k, v)).map Prod.snd := by
  induction m with
  | nil => rfl
  | cons a t ih =>
    obtain ⟨k1, v1⟩ := a
    simp only [List.map_cons, List.nodup_cons] at hnd
    by_cases hk : k1 = k
    · subst hk
      cases hfa : f (k1, v1) with
      | none =>
        have hnone : mapGet k1 (t.filterMap f) = none := by
          apply mapGet_eq_none_of_not_mem_keys
          intro hmem
          exact hnd.1 ((keys_filterMap_sublist f hf t).subset hmem)
        rw [List.filterMap_cons, hfa]
        simp [mapGet, hnone, hfa]
      | some b =>
        obtain ⟨bk, bv⟩ := b
        have hb : bk = k1 := hf _ _ hfa
        subst hb
        rw [List.filterMap_cons, hfa]
        simp [mapGet, hfa]
    · rw [List.filterMap_cons]
      cases hfa : f (k1, v1) with
      | none => simpa [mapGet, hk] using ih hnd.2
      | some b =>
        obtain ⟨bk, bv⟩ := b
        have hb : bk = k1 := hf _ _ hfa
        subst hb
        simpa [mapGet, hk] using ih hnd.2

theorem keys_engineDrain (e : Engine) (cid : String) :
    (engineDrain e cid).conns.map Prod.fst = e.conns.map Prod.fst := by
  unfold engineDrain
  rw [List.map_map]
  apply List.map_congr_left
  intro p _
  by_cases h : p.1 = cid <;> simp [h, Function.comp]

theorem enginePublish_key_preserving (org : String) (ev : Obj) :
    ∀ (a b : String × EngineConn),
      (if a.2.org = org then
         (if a.2.queue.length < queueCapacity
          then some (a.1, (⟨a.2.org, a.2.queue ++ [ev]⟩ : EngineConn)) else none)
       else some a) = some b → b.1 = a.1 := by
  intro a b hab
  by_cases h1 : a.2.org = org
  · by_cases h2 : a.2.queue.length < queueCapacity
    · simp only [h1, if_true, h2] at hab
      injection hab with hab
      rw [← hab]
    · simp [h1, h2] at hab
  · simp only [h1, if_false] at hab
    injection hab with hab
    rw [← hab]

theorem mapGet_enginePublish (e : Engine) (hnd : (e.conns.map Prod.fst).Nodup)
    (org : String) (ev : Obj) (cid : String) :
    mapGet cid (enginePublish e org ev).conns =
      match mapGet cid e.conns with
      | none => none
      | some c =>
          if c.org = org then
            (if c.queue.length < queueCapacity
             then some (⟨c.org, c.queue ++ [ev]⟩ : EngineConn) else none)
          else some c := by
  have key := mapGet_filterMap _ (enginePublish_key_preserving org ev) e.conns hnd cid
  rw [show (enginePublish e org ev).conns
        = e.conns.filterMap (fun p =>
            if p.2.org = org then
              (if p.2.queue.length < queueCapacity
               then some (p.1, (⟨p.2.org, p.2.queue ++ [ev]⟩ : EngineConn)) else none)
            else some p) from rfl, key]
  cases mapGet cid e.conns with
  | none => rfl
  | some c =>
    by_cases h1 : c.org = org <;> by_cases h2 : c.queue.length < queueCapacity <;>
      simp [h1, h2]

/-- Every reachable engine state satisfies the invariant: distinct
connection ids and all queues within capacity. -/
theorem engineInv_of_reachable {e : Engine} (h : EngineReachable e) : EngineInv e := by
  induction h with
  | init =>
    exact ⟨List.nodup_nil, by intro p hp; simp [engineInit] at hp⟩
  | register h ih =>
    refine ⟨nodup_keys_mapSet _ _ ih.1, ?_⟩
    intro p hp
    rcases mem_mapSet hp with h1 | h1
    · subst h1; simp
    · exact ih.2 p h1
  | unregister h ih =>
    refine ⟨ih.1.sublist ((List.filter_sublist _).map Prod.fst), ?_⟩
    intro p hp
    exact ih.2 p (List.mem_of_mem_filter hp)
  | drain h ih =>
    rename_i e1 cid
    refine ⟨by rw [keys_engineDrain]; exact ih.1, ?_⟩
    intro p hp
    obtain ⟨q, hq, he⟩ := List.mem_map.mp hp
    have hqlen := ih.2 q hq
    by_cases hc : q.1 = cid
    · rw [← he, if_pos hc]
      show (q.2.queue.drop 1).length ≤ queueCapacity
      rw [List.length_drop]
      omega
    · rw [← he, if_neg hc]
      exact hqlen
  | publish h ih =>
    rename_i e1 org ev
    refine ⟨ih.1.sublist (keys_filterMap_sublist _ (enginePublish_key_preserving org ev) _), ?_⟩
    intro p hp
    obtain ⟨a, ha, hfa⟩ := List.mem_filterMap.mp hp
    by_cases h1 : a.2.org = org
    · by_cases h2 : a.2.queue.length < queueCapacity
      · simp only [h1, if_true, h2] at hfa
        injection hfa with hfa
        rw [← hfa]
        simp only [List.length_append, List.length_singleton]
        omega
      · simp [h1, h2] at hfa
    · simp only [h1, if_false] at hfa
      injection hfa with hfa
      rw [← hfa]
      exact ih.2 a ha

/-- C6 (modelled from the spec, sections 3, 4.3 and 8): in every
reachable engine state every connection's outbound buffer holds at most
`queueCapacity` events; a publish that finds a target saturated removes
that connection from the index, while every other target still within
capacity receives the event and connections outside the organization are
untouched. -/
theorem engine_backpressure (e : Engine) (h : EngineReachable e) :
    (∀ p ∈ e.conns, p.2.queue.length ≤ queueCapacity) ∧
    (∀ org ev cid c, mapGet cid e.conns = some c → c.org = org →
        c.queue.length = queueCapacity →
        mapGet cid (enginePublish e org ev).conns = none) ∧
    (∀ org ev cid c, mapGet cid e.conns = some c → c.org = org →
        c.queue.length < queueCapacity →
        mapGet cid (enginePublish e org ev).conns
          = some (⟨c.org, c.queue ++ [ev]⟩ : EngineConn)) ∧
    (∀ org ev cid c, mapGet cid e.conns = some c → c.org ≠ org →
        mapGet cid (enginePublish e org ev).conns = some c) := by
  have inv := engineInv_of_reachable h
  refine ⟨inv.2, ?_, ?_, ?_⟩
  · intro org ev cid c hc horg hlen
    rw [mapGet_enginePublish e inv.1 org ev cid, hc]
    simp [horg, hlen]
  · intro org ev cid c hc horg hlt
    rw [mapGet_enginePublish e inv.1 org ev cid, hc]
    simp [horg, hlt]
  · intro org ev cid c hc hne
    rw [mapGet_enginePublish e inv.1 org ev cid, hc]
    simp [hne]

/-- C6 witness: on the concrete reachable state `engineSat` — `c1`
saturated at capacity, `c2` empty, both in organization `O1` — one more
publish removes `c1` from the index and delivers the event to `c2`. -/
theorem engine_backpressure_witness :
    mapGet "c1" (enginePublish engineSat "O1" evDemo).conns = none ∧
    mapGet "c2" (enginePublish engineSat "O1" evDemo).conns
      = some (⟨"O1", [evDemo]⟩ : EngineConn) := by
  have hr : EngineReachable engineSat := by
    unfold engineSat engineDemo
    exact .drain (.drain (.drain (.drain (.publish (.publish (.publish (.publish
      (.register (.register .init)))))))))
  constructor
  · exact (engine_backpressure engineSat hr).2.1 "O1" evDemo "c1"
      ⟨"O1", [evDemo, evDemo, evDemo, evDemo]⟩ (by decide) rfl (by decide)
  · exact (engine_backpressure engineSat hr).2.2.1 "O1" evDemo "c2"
      ⟨"O1", []⟩ (by decide) rfl (by decide)

end SDMP
